import Mathlib

/-
  Verification development for the retirement-calculator engine
  (src/web/src/App.jsx).  The numeric engine is shallowly embedded over ℚ:
  money amounts and rates are rationals, ages are integers, year indices are
  naturals.  Every definition below is translated from the source file; the
  line numbers in the comments refer to src/web/src/App.jsx.
-/

namespace RetirementCalc

/-
  Net annual withdrawal for retirement-year index t (0-based).
  The source computes this expression inline at three places with identical
  text (lines 44-53 inside `calculate`, lines 210-215 and 224-229 inside the
  early-bridge block); it is factored out here once.
  `ofs` is the number of years after retirement at which social security
  starts (the callers at lines 123 and 373-380 differ in how they derive it).
-/
def netWithdrawal (withdrawal g pensionAnnual ssAnnual fixedIncomeInflation : ℚ)
    (ofs : ℤ) (t : ℕ) : ℚ :=
  let baseWithdrawal := withdrawal * (1 + g) ^ t
  let pensionAdj := pensionAnnual * (1 + fixedIncomeInflation) ^ t
  let ssAdj : ℚ :=
    if ofs ≤ (t : ℤ) then ssAnnual * (1 + fixedIncomeInflation) ^ ((t : ℤ) - ofs).toNat
    else 0
  max 0 (baseWithdrawal - pensionAdj - ssAdj)

/-
  Accumulation loop `pv += f t` for t = 0, 1, ..., N-1 (the JS `for` loops at
  lines 43-57, 210-219 and 224-231 all have this shape).
-/
def pvLoop (f : ℕ → ℚ) (N : ℕ) : ℚ :=
  (List.range N).foldl (fun pv t => pv + f t) 0

/- Result record of `calculate` (lines 35-78).  The `lumpNeeded` field is
   present only on the `n === 0` path (line 66). -/
structure CalcResult where
  targetCorpus : ℚ
  annual : ℚ
  lumpNeeded : Option ℚ
deriving DecidableEq

/-
  `calculate` (lines 35-78): target corpus as the present value of the net
  withdrawal stream, then the annuity inversion for the required annual
  saving.  `yearsInRetirement` arrives already clamped (line 134) but the
  function itself re-checks `N <= 0`; `yearsToRetire` arrives clamped at 0
  (line 133), so it is a natural number here.
-/
def calculate (currentAssets : ℚ) (yearsToRetire : ℕ) (yearsInRetirement : ℤ)
    (withdrawal rPre rPost g pensionAnnual ssAnnual : ℚ) (ssOffset : ℤ)
    (fixedIncomeInflation : ℚ) : CalcResult :=
  if yearsInRetirement ≤ 0 then ⟨0, 0, none⟩
  else
    let targetCorpus :=
      pvLoop
        (fun t =>
          netWithdrawal withdrawal g pensionAnnual ssAnnual fixedIncomeInflation ssOffset t /
            (1 + rPost) ^ (t + 1))
        yearsInRetirement.toNat
    let n := yearsToRetire
    let fvAssets := currentAssets * (1 + rPre) ^ n
    let neededFv := max 0 (targetCorpus - fvAssets)
    if n = 0 then ⟨targetCorpus, 0, some (max 0 (targetCorpus - currentAssets))⟩
    else if 0 < rPre then
      let annuityFactor := ((1 + rPre) ^ n - 1) / rPre
      ⟨targetCorpus, neededFv / annuityFactor, none⟩
    else ⟨targetCorpus, neededFv / (n : ℚ), none⟩

/- Derived horizon quantities (lines 123, 133, 134, 201). -/
def yearsToRetireOf (curAge retAge : ℤ) : ℕ := (max 0 (retAge - curAge)).toNat

def yearsInRetirement (retAge lastAge : ℤ) : ℤ := max 0 (lastAge - retAge + 1)

def ssOffsetOf (retAge ssStartAge : ℤ) : ℤ := max 0 (ssStartAge - retAge)

def earlyYearsOf (retAge penaltyFreeAge : ℤ) : ℕ := (max 0 (penaltyFreeAge - retAge)).toNat

/-
  Early-bridge present value `earlyNeeded` (lines 201-234).  The source
  branches on `Math.abs(rPostVal - g) > 1e-12`; the branch taken computes a
  variable `q` that is never used and then runs a loop (lines 210-219), and
  the fallback branch (lines 222-231) runs a textually identical loop.  Both
  loops are kept here, one per branch, as in the source.
-/
def earlyNeededCalc (withdrawalVal g pensionAnnual ssAnnual fixedIncomeInflationPct
    rPostVal : ℚ) (ssOffset : ℤ) (earlyYears : ℕ) : ℚ :=
  if 0 < earlyYears then
    if 1 / 1000000000000 < |rPostVal - g| then
      let _q := (1 + g) / (1 + rPostVal)
      (List.range earlyYears).foldl
        (fun pv t =>
          pv + netWithdrawal withdrawalVal g pensionAnnual ssAnnual fixedIncomeInflationPct
              ssOffset t / (1 + rPostVal) ^ (t + 1)) 0
    else
      (List.range earlyYears).foldl
        (fun pv t =>
          pv + netWithdrawal withdrawalVal g pensionAnnual ssAnnual fixedIncomeInflationPct
              ssOffset t / (1 + rPostVal) ^ (t + 1)) 0
  else 0

/-
  `projectBalancesToRetirement` (lines 157-167) and its variants: n years of
  `balance = balance*(1+rate) + contribution` per bucket.  The App instance
  uses annualRetirementContrib = 0 and annualNonRetContrib = 0 (lines 153-154).
-/
def projectLoop (rate retContrib nonretContrib : ℚ) : ℕ → ℚ × ℚ → ℚ × ℚ
  | 0, s => s
  | Nat.succ k, s =>
      projectLoop rate retContrib nonretContrib k
        (s.1 * (1 + rate) + retContrib, s.2 * (1 + rate) + nonretContrib)

/- Shortfall of the projected non-retirement balance against the early need
   (line 236). -/
def shortfallNonretAtRet (earlyNeeded projNonretAtRet : ℚ) : ℚ :=
  max 0 (earlyNeeded - projNonretAtRet)

/- Annual non-retirement saving needed to cover the shortfall (lines 239-251). -/
def neededNonretAnnualCalc (shortfall rpre : ℚ) (n : ℕ) : ℚ :=
  if 0 < shortfall then
    if n = 0 then shortfall
    else if 0 < rpre then shortfall / (((1 + rpre) ^ n - 1) / rpre)
    else shortfall / (n : ℚ)
  else 0

/- Outputs of allocation step 1 (lines 281-301). -/
structure Step1Result where
  emp401kDollarForMatch : ℚ
  emp401kPctForMatch : ℚ
  employerMatchDollarApplied : ℚ
  remainingNeed : ℚ
deriving DecidableEq

/-
  Allocation step 1, employer-match capture (lines 281-301).  The two `let`
  bindings with the same `e0 < employeeCapDollar` condition mirror the
  sequential mutation of `emp401kDollarForMatch` and `emp401kPctForMatch`
  in the source (lines 291-297).
-/
def step1 (grossPay employerMatchPctNum four01kLimitVal remainingNeed0 : ℚ) : Step1Result :=
  let employerMatchCap := grossPay * (employerMatchPctNum / 100)
  let employeeCapDollar := max 0 four01kLimitVal
  if 0 < grossPay ∧ 0 < employerMatchCap ∧ 0 < remainingNeed0 then
    let e0 := min (min (min grossPay employeeCapDollar) employerMatchCap) (remainingNeed0 / 2)
    let p0 := e0 / grossPay * 100
    let e1 :=
      if e0 < employeeCapDollar then
        min (grossPay * ((⌈p0⌉ : ℚ) / 100)) employeeCapDollar
      else e0
    let p1 :=
      if e0 < employeeCapDollar then
        if e1 = employeeCapDollar then e1 / grossPay * 100 else (⌈p0⌉ : ℚ)
      else p0
    let matchApplied := min employerMatchCap e1
    ⟨e1, p1, matchApplied, max 0 (remainingNeed0 - (e1 + matchApplied))⟩
  else ⟨0, 0, 0, remainingNeed0⟩

/- Final allocation figures (lines 304-343). -/
structure AllocResult where
  rec401kDollarUsed : ℚ
  recEmployerMatchDollarUsed : ℚ
  recommendedIra : ℚ
  neededNonretAnnual : ℚ
deriving DecidableEq

/-
  The contribution-allocation waterfall, steps 1-5 (lines 277-343).
  Notes on fidelity:
  - step 2 (lines 304-305) caps the IRA amount by the configured limit;
  - step 3 (lines 308-309) uses the raw `four01kLimit` value, not the
    clamped `employeeCapDollar`;
  - step 4 (lines 312-321) re-rounds the combined percentage; the source
    overwrites `recommended401kDollar` at line 317, so the later
    `deltaEmployee = rec401kDollarUsed - recommended401kDollar` (line 329)
    subtracts the updated value from itself and is always 0.  That dead
    subtraction is reproduced literally below;
  - step 5 (lines 339-343) moves any leftover need to non-retirement saving.
-/
def allocate (grossPay employerMatchPctNum four01kLimitVal iraLimitVal
    additionalRetAnnual neededNonret0 : ℚ) : AllocResult :=
  let s1 := step1 grossPay employerMatchPctNum four01kLimitVal additionalRetAnnual
  let employerMatchCap := grossPay * (employerMatchPctNum / 100)
  let employeeCapDollar := max 0 four01kLimitVal
  let recommendedIra0 := min iraLimitVal s1.remainingNeed
  let remaining2 := max 0 (s1.remainingNeed - recommendedIra0)
  let emp401kDollarExtraRec := min remaining2 (four01kLimitVal - s1.emp401kDollarForMatch)
  let remaining3 := max 0 (remaining2 - emp401kDollarExtraRec)
  let rec0 := s1.emp401kDollarForMatch + emp401kDollarExtraRec
  let rec1 :=
    if rec0 < employeeCapDollar ∧ 0 < rec0 then
      min employeeCapDollar (grossPay * ((⌈rec0 / grossPay * 100⌉ : ℚ) / 100))
    else rec0
  let recommendedIra1 :=
    if rec0 < employeeCapDollar ∧ 0 < rec0 then
      if rec1 ≠ rec0 then max 0 (recommendedIra0 - (rec1 - rec0)) else recommendedIra0
    else recommendedIra0
  let rec401kDollarUsed := rec1
  let recEmployerMatchDollarUsed := min employerMatchCap rec401kDollarUsed
  let deltaEmployee := rec401kDollarUsed - rec1
  let deltaMatch := recEmployerMatchDollarUsed - s1.employerMatchDollarApplied
  let totalDeltaRet := max 0 (deltaEmployee + deltaMatch)
  let nn1 := if 0 < totalDeltaRet then max 0 (neededNonret0 - totalDeltaRet) else neededNonret0
  let nn2 := if 0 < remaining3 then nn1 + remaining3 else nn1
  ⟨rec401kDollarUsed, recEmployerMatchDollarUsed, recommendedIra1, nn2⟩

/- Parameters of the year-by-year balance projector (lines 355-398, 594-632). -/
structure SimParams where
  retirementAge : ℤ
  ssStartAge : ℤ
  rPre : ℚ
  rPost : ℚ
  g : ℚ
  fixedIncomeInflation : ℚ
  withdrawal : ℚ
  pensionAnnual : ℚ
  ssAnnual : ℚ
  retContrib : ℚ
  nonretContrib : ℚ
deriving DecidableEq

/-
  One simulated year (body of the loop at lines 361-396; the identical body
  appears at lines 602-629 and 643-673).  Growth first, then either
  end-of-year contributions (accumulation) or the net withdrawal drawn
  preferentially from the non-retirement bucket (decumulation).  The two
  `if toWithdraw ≤ nonretBal` bindings mirror the single JS branch that
  mutates both `nonretBal` and `toWithdraw` (lines 384-390).
-/
def simStep (P : SimParams) (age : ℤ) (s : ℚ × ℚ) : ℚ × ℚ :=
  let rate := if age < P.retirementAge then P.rPre else P.rPost
  let retBal := s.1 * (1 + rate)
  let nonretBal := s.2 * (1 + rate)
  if age < P.retirementAge then
    (retBal + P.retContrib, nonretBal + P.nonretContrib)
  else
    let yearsSinceRet := age - P.retirementAge
    let baseWithdrawal := P.withdrawal * (1 + P.g) ^ (max 0 yearsSinceRet).toNat
    let pensionAdjLocal :=
      P.pensionAnnual * (1 + P.fixedIncomeInflation) ^ (max 0 yearsSinceRet).toNat
    let ageSinceSS := age - P.ssStartAge
    let ssAdjLocal : ℚ :=
      if P.ssStartAge ≤ age then
        P.ssAnnual * (1 + P.fixedIncomeInflation) ^ (max 0 ageSinceSS).toNat
      else 0
    let toWithdraw := max 0 (baseWithdrawal - pensionAdjLocal - ssAdjLocal)
    let nonretBal2 := if toWithdraw ≤ nonretBal then nonretBal - toWithdraw else 0
    let toWithdraw2 := if toWithdraw ≤ nonretBal then 0 else toWithdraw - nonretBal
    let retBal2 := if 0 < toWithdraw2 then max 0 (retBal - toWithdraw2) else retBal
    (retBal2, nonretBal2)

/- `simulateToAge` (lines 355-398): iterate `simStep` for the ages
   curAge, curAge+1, ..., targetAge-1. -/
def simulateToAge (P : SimParams) (curAge targetAge : ℤ) (init : ℚ × ℚ) : ℚ × ℚ :=
  ((List.range (targetAge - curAge).toNat).map (fun i => curAge + (i : ℤ))).foldl
    (fun s age => simStep P age s) init

/- One chart point (lines 595-600). -/
structure BalanceSnapshot where
  age : ℤ
  retBal : ℚ
  nonretBal : ℚ

/-
  `simulatePoints` (lines 594-632): the snapshot pushed at index i is the
  state before the i-th update, i.e. the state after simulating up to age
  curAge + i.  The source accumulates the same prefix states in a single
  pass; here each prefix is expressed through `simulateToAge`.
-/
def simulatePoints (P : SimParams) (curAge : ℤ) (years : ℕ) (init : ℚ × ℚ) :
    List BalanceSnapshot :=
  (List.range (years + 1)).map
    (fun i =>
      let s := simulateToAge P curAge (curAge + (i : ℤ)) init
      ⟨curAge + (i : ℤ), s.1, s.2⟩)

/- Net withdrawal used by the simulator in the decumulation year at `age`
   (series instance with the social-security offset taken from the raw start
   age, lines 373-382). -/
def simNet (P : SimParams) (age : ℤ) : ℚ :=
  netWithdrawal P.withdrawal P.g P.pensionAnnual P.ssAnnual P.fixedIncomeInflation
    (P.ssStartAge - P.retirementAge) (age - P.retirementAge).toNat

/- The accumulation loop computes the finite sum of its terms. -/
lemma pvLoop_eq_sum (f : ℕ → ℚ) (N : ℕ) : pvLoop f N = ∑ t ∈ Finset.range N, f t := by
  induction N with
  | zero => rfl
  | succ k ih =>
    rw [pvLoop, List.range_succ, List.foldl_append]
    simp only [List.foldl_cons, List.foldl_nil]
    rw [Finset.sum_range_succ, ← ih]
    rfl

/- With a natural offset, `netWithdrawal` is the formula of spec section 4.1. -/
lemma netWithdrawal_eq_spec (w g p ss fi : ℚ) (s t : ℕ) :
    netWithdrawal w g p ss fi (s : ℤ) t =
      max 0 (w * (1 + g) ^ t - p * (1 + fi) ^ t -
        (if s ≤ t then ss * (1 + fi) ^ (t - s) else 0)) := by
  unfold netWithdrawal
  rcases le_or_lt s t with h | h
  · rw [if_pos (by exact_mod_cast h), if_pos h]
    have he : ((t : ℤ) - (s : ℤ)).toNat = t - s := by omega
    rw [he]
  · rw [if_neg (by exact_mod_cast h.not_le), if_neg h.not_le]

/- On a positive horizon, the targetCorpus field is the discounted loop value,
   whichever annuity branch is taken afterwards. -/
lemma calculate_targetCorpus (ca : ℚ) (n : ℕ) (NY : ℤ) (w rPre rPost g p ss : ℚ)
    (ofs : ℤ) (fi : ℚ) (h : ¬ NY ≤ 0) :
    (calculate ca n NY w rPre rPost g p ss ofs fi).targetCorpus =
      pvLoop (fun t => netWithdrawal w g p ss fi ofs t / (1 + rPost) ^ (t + 1)) NY.toNat := by
  simp only [calculate, if_neg h]
  split_ifs <;> rfl

lemma netWithdrawal_mono_withdrawal (w w2 g p ss fi : ℚ) (ofs : ℤ) (t : ℕ)
    (hg : 0 ≤ 1 + g) (hw : w ≤ w2) :
    netWithdrawal w g p ss fi ofs t ≤ netWithdrawal w2 g p ss fi ofs t := by
  unfold netWithdrawal
  refine max_le_max le_rfl ?_
  have h := mul_le_mul_of_nonneg_right hw (pow_nonneg hg t)
  exact sub_le_sub_right (sub_le_sub_right h _) _

lemma netWithdrawal_anti_pension (w g p p2 ss fi : ℚ) (ofs : ℤ) (t : ℕ)
    (hfi : 0 ≤ 1 + fi) (hp : p ≤ p2) :
    netWithdrawal w g p2 ss fi ofs t ≤ netWithdrawal w g p ss fi ofs t := by
  unfold netWithdrawal
  refine max_le_max le_rfl ?_
  have h := mul_le_mul_of_nonneg_right hp (pow_nonneg hfi t)
  have h2 : w * (1 + g) ^ t - p2 * (1 + fi) ^ t ≤ w * (1 + g) ^ t - p * (1 + fi) ^ t :=
    sub_le_sub_left h _
  exact sub_le_sub_right h2 _

/- In an accumulation year each bucket grows and receives its contribution. -/
lemma simStep_accum (P : SimParams) (age : ℤ) (s : ℚ × ℚ) (h : age < P.retirementAge) :
    simStep P age s =
      (s.1 * (1 + P.rPre) + P.retContrib, s.2 * (1 + P.rPre) + P.nonretContrib) := by
  simp only [simStep, if_pos h]

/- In a decumulation year both buckets grow at rPost, then the net withdrawal
   is drawn from the non-retirement bucket first and only the excess from the
   retirement bucket. -/
lemma simStep_decum (P : SimParams) (age : ℤ) (s : ℚ × ℚ) (h : P.retirementAge ≤ age) :
    simStep P age s =
      (if simNet P age ≤ s.2 * (1 + P.rPost) then s.1 * (1 + P.rPost)
       else max 0 (s.1 * (1 + P.rPost) - (simNet P age - s.2 * (1 + P.rPost))),
       max 0 (s.2 * (1 + P.rPost) - simNet P age)) := by
  have hlt : ¬ age < P.retirementAge := not_lt.mpr h
  have hnet :
      max 0 (P.withdrawal * (1 + P.g) ^ (max 0 (age - P.retirementAge)).toNat -
          P.pensionAnnual * (1 + P.fixedIncomeInflation) ^ (max 0 (age - P.retirementAge)).toNat -
          (if P.ssStartAge ≤ age then
            P.ssAnnual * (1 + P.fixedIncomeInflation) ^ (max 0 (age - P.ssStartAge)).toNat
          else 0)) = simNet P age := by
    simp only [simNet, netWithdrawal]
    have e1 : (max 0 (age - P.retirementAge)).toNat = (age - P.retirementAge).toNat := by omega
    have e2 : (((age - P.retirementAge).toNat : ℤ) - (P.ssStartAge - P.retirementAge)).toNat =
        (max 0 (age - P.ssStartAge)).toNat := by omega
    rw [e1, e2]
    by_cases hss : P.ssStartAge ≤ age
    · rw [if_pos hss,
        if_pos (show P.ssStartAge - P.retirementAge ≤ ((age - P.retirementAge).toNat : ℤ) by omega)]
    · rw [if_neg hss,
        if_neg (show ¬ P.ssStartAge - P.retirementAge ≤ ((age - P.retirementAge).toNat : ℤ) by
          omega)]
  simp only [simStep, if_neg hlt, hlt, if_false, hnet]
  by_cases hw : simNet P age ≤ s.2 * (1 + P.rPost)
  · rw [if_pos hw, if_pos hw, if_pos hw, if_neg (lt_irrefl 0), max_eq_right (sub_nonneg.mpr hw)]
  · have hpos : 0 < simNet P age - s.2 * (1 + P.rPost) := sub_pos.mpr (lt_of_not_le hw)
    rw [if_neg hw, if_neg hw, if_neg hw, if_pos hpos,
      max_eq_left (sub_nonpos.mpr (le_of_not_le hw))]

/- One simulated year preserves non-negativity of both buckets over the
   documented input domain. -/
lemma simStep_nonneg (P : SimParams) (age : ℤ) (s : ℚ × ℚ)
    (hpre : 0 ≤ 1 + P.rPre) (hpost : 0 ≤ 1 + P.rPost)
    (hrc : 0 ≤ P.retContrib) (hnc : 0 ≤ P.nonretContrib)
    (h1 : 0 ≤ s.1) (h2 : 0 ≤ s.2) :
    0 ≤ (simStep P age s).1 ∧ 0 ≤ (simStep P age s).2 := by
  by_cases h : age < P.retirementAge
  · rw [simStep_accum P age s h]
    exact ⟨add_nonneg (mul_nonneg h1 hpre) hrc, add_nonneg (mul_nonneg h2 hpre) hnc⟩
  · rw [simStep_decum P age s (not_lt.mp h)]
    refine ⟨?_, le_max_left 0 _⟩
    dsimp only
    split_ifs
    · exact mul_nonneg h1 hpost
    · exact le_max_left 0 _

/- Iterating the simulator over any list of ages preserves non-negativity. -/
lemma simFold_nonneg (P : SimParams)
    (hpre : 0 ≤ 1 + P.rPre) (hpost : 0 ≤ 1 + P.rPost)
    (hrc : 0 ≤ P.retContrib) (hnc : 0 ≤ P.nonretContrib) :
    ∀ (l : List ℤ) (s : ℚ × ℚ), 0 ≤ s.1 → 0 ≤ s.2 →
      0 ≤ (l.foldl (fun s a => simStep P a s) s).1 ∧
      0 ≤ (l.foldl (fun s a => simStep P a s) s).2 := by
  intro l
  induction l with
  | nil => intro s h1 h2; exact ⟨h1, h2⟩
  | cons a l ih =>
    intro s h1 h2
    obtain ⟨k1, k2⟩ := simStep_nonneg P a s hpre hpost hrc hnc h1 h2
    exact ih (simStep P a s) k1 k2

/- The projection loop keeps the non-retirement balance non-negative. -/
lemma projectLoop_snd_nonneg (rate retContrib nonretContrib : ℚ)
    (hr : 0 ≤ 1 + rate) (hc : 0 ≤ nonretContrib) :
    ∀ (n : ℕ) (s : ℚ × ℚ), 0 ≤ s.2 → 0 ≤ (projectLoop rate retContrib nonretContrib n s).2 := by
  intro n
  induction n with
  | zero => intro s h; exact h
  | succ k ih =>
    intro s h
    exact ih _ (add_nonneg (mul_nonneg h hr) hc)

/-- C1: on a horizon N = max(0, lastAge - retirementAge + 1) > 0 the corpus
sizer returns the sum over t = 0..N-1 of the clamped net withdrawal
max(0, withdrawal*(1+g)^t - pension*(1+fi)^t - ss-term) discounted by
(1+rPost)^(t+1), and for N = 0 it returns 0. -/
theorem corpus_sizer_presentValue (currentAssets : ℚ) (yearsToRetireN : ℕ)
    (retAge lastAge : ℤ) (w rPre rPost g p ss : ℚ) (ssOffsetN : ℕ) (fi : ℚ) (N : ℕ)
    (hN : yearsInRetirement retAge lastAge = (N : ℤ)) :
    (0 < N →
      (calculate currentAssets yearsToRetireN (yearsInRetirement retAge lastAge)
          w rPre rPost g p ss (ssOffsetN : ℤ) fi).targetCorpus =
        ∑ t ∈ Finset.range N,
          max 0 (w * (1 + g) ^ t - p * (1 + fi) ^ t -
            (if ssOffsetN ≤ t then ss * (1 + fi) ^ (t - ssOffsetN) else 0)) /
            (1 + rPost) ^ (t + 1)) ∧
    (N = 0 →
      (calculate currentAssets yearsToRetireN (yearsInRetirement retAge lastAge)
          w rPre rPost g p ss (ssOffsetN : ℤ) fi).targetCorpus = 0) := by
  constructor
  · intro hpos
    have hne : ¬ yearsInRetirement retAge lastAge ≤ 0 := by rw [hN]; omega
    rw [calculate_targetCorpus _ _ _ _ _ _ _ _ _ _ _ hne, hN]
    have ht : ((N : ℤ)).toNat = N := by omega
    rw [ht, pvLoop_eq_sum]
    refine Finset.sum_congr rfl ?_
    intro t _
    rw [netWithdrawal_eq_spec]
  · intro h0
    have hle : yearsInRetirement retAge lastAge ≤ 0 := by rw [hN]; omega
    simp only [calculate, if_pos hle]

theorem corpus_sizer_presentValue_witness :
    0 < 2 ∧
    (calculate 0 5 (yearsInRetirement 65 66) 10 0 0 0 0 0 ((0 : ℕ) : ℤ) 0).targetCorpus =
      ∑ t ∈ Finset.range 2,
        max 0 ((10 : ℚ) * (1 + 0) ^ t - 0 * (1 + 0) ^ t -
          (if 0 ≤ t then 0 * (1 + 0) ^ (t - 0) else 0)) / (1 + 0) ^ (t + 1) :=
  ⟨by decide,
    (corpus_sizer_presentValue 0 5 65 66 10 0 0 0 0 0 0 0 2 (by decide)).1 (by decide)⟩

/-- C10: the two branches of the early-bridge present-value computation are
textually identical loops, so earlyNeeded equals the discounted withdrawal
series over the early window regardless of which branch executes, and is 0
for a zero-length window. -/
theorem earlyNeeded_branch_independent (w g p ss fi rPost : ℚ) (ofs : ℤ) (earlyYears : ℕ) :
    earlyNeededCalc w g p ss fi rPost ofs earlyYears =
      ∑ t ∈ Finset.range earlyYears,
        netWithdrawal w g p ss fi ofs t / (1 + rPost) ^ (t + 1) := by
  unfold earlyNeededCalc
  split_ifs with h1 h2
  · exact pvLoop_eq_sum (fun t => netWithdrawal w g p ss fi ofs t / (1 + rPost) ^ (t + 1))
      earlyYears
  · exact pvLoop_eq_sum (fun t => netWithdrawal w g p ss fi ofs t / (1 + rPost) ^ (t + 1))
      earlyYears
  · have h0 : earlyYears = 0 := by omega
    subst h0
    simp

/-- C8 counterexample: with the spec-permitted negative discount rate
rPost = -2 (so 1+rPost = -1) and a one-year horizon, raising withdrawal0
from 0 to 1 lowers targetCorpus from 0 to -1, so the unrestricted
monotonicity claim is false. -/
theorem corpus_monotonicity_counterexample :
    (calculate 0 0 (yearsInRetirement 65 65) 1 0 (-2) 0 0 0 0 0).targetCorpus <
      (calculate 0 0 (yearsInRetirement 65 65) 0 0 (-2) 0 0 0 0 0).targetCorpus := by
  have hY : yearsInRetirement 65 65 = (1 : ℤ) := by decide
  rw [hY]
  simp only [calculate, pvLoop, netWithdrawal]
  norm_num [List.range_succ, max_def]

/-- C8 amended: whenever 1+g ≥ 0, 1+fixedIncomeInflation ≥ 0 and
1+rPost > 0, targetCorpus is nondecreasing in withdrawal0 and nonincreasing
in pensionAnnual. -/
theorem corpus_sizer_monotone (ca : ℚ) (n : ℕ) (NY : ℤ) (w w2 rPre rPost g p p2 ss : ℚ)
    (ofs : ℤ) (fi : ℚ) (hg : 0 ≤ 1 + g) (hr : 0 < 1 + rPost) (hfi : 0 ≤ 1 + fi)
    (hw : w ≤ w2) (hp : p ≤ p2) :
    (calculate ca n NY w rPre rPost g p ss ofs fi).targetCorpus ≤
      (calculate ca n NY w2 rPre rPost g p ss ofs fi).targetCorpus ∧
    (calculate ca n NY w rPre rPost g p2 ss ofs fi).targetCorpus ≤
      (calculate ca n NY w rPre rPost g p ss ofs fi).targetCorpus := by
  by_cases hN : NY ≤ 0
  · simp only [calculate, if_pos hN]
    exact ⟨le_refl 0, le_refl 0⟩
  · constructor
    · rw [calculate_targetCorpus _ _ _ _ _ _ _ _ _ _ _ hN,
        calculate_targetCorpus _ _ _ _ _ _ _ _ _ _ _ hN, pvLoop_eq_sum, pvLoop_eq_sum]
      refine Finset.sum_le_sum ?_
      intro t _
      exact (div_le_div_iff_of_pos_right (pow_pos hr (t + 1))).mpr
        (netWithdrawal_mono_withdrawal w w2 g p ss fi ofs t hg hw)
    · rw [calculate_targetCorpus _ _ _ _ _ _ _ _ _ _ _ hN,
        calculate_targetCorpus _ _ _ _ _ _ _ _ _ _ _ hN, pvLoop_eq_sum, pvLoop_eq_sum]
      refine Finset.sum_le_sum ?_
      intro t _
      exact (div_le_div_iff_of_pos_right (pow_pos hr (t + 1))).mpr
        (netWithdrawal_anti_pension w g p p2 ss fi ofs t hfi hp)

theorem corpus_sizer_monotone_witness :
    (0 : ℚ) ≤ 1 + 0 ∧ (0 : ℚ) < 1 + 0 ∧ (0 : ℚ) ≤ (1 : ℚ) ∧
    ((calculate 0 0 2 1 0 0 0 0 0 0 0).targetCorpus ≤
        (calculate 0 0 2 2 0 0 0 0 0 0 0).targetCorpus ∧
      (calculate 0 0 2 1 0 0 0 1 0 0 0).targetCorpus ≤
        (calculate 0 0 2 1 0 0 0 0 0 0 0).targetCorpus) :=
  ⟨by norm_num, by norm_num, by norm_num,
    corpus_sizer_monotone 0 0 2 1 2 0 0 0 0 1 0 0 0 (by norm_num) (by norm_num) (by norm_num)
      (by norm_num) (by norm_num)⟩

/-- C2: on a positive retirement horizon, with FV = max(0, targetCorpus -
currentAssets*(1+rPre)^n): for n = 0 the annual saving is 0 and the lump-sum
shortfall is max(0, targetCorpus - currentAssets); for n > 0 and rPre > 0
the annual saving is FV*rPre/((1+rPre)^n - 1); for n > 0 and rPre ≤ 0 it is
FV/n. -/
theorem annuity_solver_characterization (ca : ℚ) (n : ℕ) (NY : ℤ)
    (w rPre rPost g p ss : ℚ) (ofs : ℤ) (fi : ℚ) (hNY : 0 < NY) :
    (n = 0 →
      (calculate ca n NY w rPre rPost g p ss ofs fi).annual = 0 ∧
      (calculate ca n NY w rPre rPost g p ss ofs fi).lumpNeeded =
        some (max 0 ((calculate ca n NY w rPre rPost g p ss ofs fi).targetCorpus - ca))) ∧
    (0 < n → 0 < rPre →
      (calculate ca n NY w rPre rPost g p ss ofs fi).annual =
        max 0 ((calculate ca n NY w rPre rPost g p ss ofs fi).targetCorpus -
          ca * (1 + rPre) ^ n) * rPre / ((1 + rPre) ^ n - 1)) ∧
    (0 < n → rPre ≤ 0 →
      (calculate ca n NY w rPre rPost g p ss ofs fi).annual =
        max 0 ((calculate ca n NY w rPre rPost g p ss ofs fi).targetCorpus -
          ca * (1 + rPre) ^ n) / (n : ℚ)) := by
  have hne : ¬ NY ≤ 0 := not_le.mpr hNY
  refine ⟨?_, ?_, ?_⟩
  · intro hn0
    rw [calculate_targetCorpus _ _ _ _ _ _ _ _ _ _ _ hne]
    constructor
    · simp only [calculate, if_neg hne, if_pos hn0]
    · simp only [calculate, if_neg hne, if_pos hn0]
  · intro hn hrp
    rw [calculate_targetCorpus _ _ _ _ _ _ _ _ _ _ _ hne]
    simp only [calculate, if_neg hne, if_neg hn.ne', if_pos hrp]
    rw [div_div_eq_mul_div]
  · intro hn hrp
    rw [calculate_targetCorpus _ _ _ _ _ _ _ _ _ _ _ hne]
    simp only [calculate, if_neg hne, if_neg hn.ne', if_neg (not_lt.mpr hrp)]

theorem annuity_solver_characterization_witness :
    (0 : ℤ) < 1 ∧ 0 < 2 ∧ (0 : ℚ) ≤ 0 ∧
    (calculate 0 2 1 10 0 0 0 0 0 0 0).annual =
      max 0 ((calculate 0 2 1 10 0 0 0 0 0 0 0).targetCorpus - 0 * (1 + 0) ^ 2) /
        ((2 : ℕ) : ℚ) :=
  ⟨by decide, by decide, by decide,
    (annuity_solver_characterization 0 2 1 10 0 0 0 0 0 0 0 (by decide)).2.2
      (by decide) (by decide)⟩

/-- C3: with grossPay > 0, a positive employer-match cap and a positive
remaining need, step 1 tentatively sets the employee amount to
min(grossPay, L401k, employerMatchCap, need/2), rounds the implied
percentage up to the next whole percent when strictly below the limit and
recomputes the dollar amount capped at L401k, applies an employer match of
min(employerMatchCap, employeeAmount), and reduces the need by
employee + match, floored at 0. -/
theorem allocator_step1_match_capture (grossPay matchPctNum L need e0 e : ℚ)
    (hg : 0 < grossPay) (hc : 0 < grossPay * (matchPctNum / 100)) (hn : 0 < need)
    (hL : 0 ≤ L)
    (he0 : e0 = min (min (min grossPay L) (grossPay * (matchPctNum / 100))) (need / 2))
    (he : e = if e0 < L then min (grossPay * ((⌈e0 / grossPay * 100⌉ : ℚ) / 100)) L else e0) :
    (step1 grossPay matchPctNum L need).emp401kDollarForMatch = e ∧
    (step1 grossPay matchPctNum L need).employerMatchDollarApplied =
      min (grossPay * (matchPctNum / 100)) e ∧
    (step1 grossPay matchPctNum L need).remainingNeed =
      max 0 (need - (e + min (grossPay * (matchPctNum / 100)) e)) := by
  subst he0 he
  have hcap : max 0 L = L := max_eq_right hL
  simp only [step1, hcap]
  rw [if_pos ⟨hg, hc, hn⟩]
  exact ⟨rfl, rfl, rfl⟩

theorem allocator_step1_match_capture_witness :
    (0 : ℚ) < 1000 ∧
    ((step1 1000 3 500 100).emp401kDollarForMatch = 30 ∧
      (step1 1000 3 500 100).employerMatchDollarApplied = min (1000 * (3 / 100)) 30 ∧
      (step1 1000 3 500 100).remainingNeed = max 0 (100 - (30 + min (1000 * (3 / 100)) 30))) :=
  ⟨by norm_num,
    allocator_step1_match_capture 1000 3 500 100 30 30 (by norm_num) (by norm_num)
      (by norm_num) (by norm_num) (by norm_num [min_def])
      (by
        have hc : ⌈(30 : ℚ) / 1000 * 100⌉ = 3 := by
          rw [Int.ceil_eq_iff]
          norm_num
        rw [if_pos (by norm_num : (30 : ℚ) < 500), hc]
        norm_num [min_def])⟩

/-- C5: in a decumulation year (age at or past retirement age) both buckets
grow at rPost and the net withdrawal of section 4.1, taken at t = years since
retirement with the social-security offset ssStartAge - retirementAge, is
drawn from the non-retirement bucket first and only the excess from the
retirement bucket; in an accumulation year each bucket is updated to
balance*(1+rPre) plus its annual contribution. -/
theorem projector_step_characterization (P : SimParams) (age : ℤ) (s : ℚ × ℚ) :
    (P.retirementAge ≤ age →
      simStep P age s =
        (if simNet P age ≤ s.2 * (1 + P.rPost) then s.1 * (1 + P.rPost)
         else max 0 (s.1 * (1 + P.rPost) - (simNet P age - s.2 * (1 + P.rPost))),
         max 0 (s.2 * (1 + P.rPost) - simNet P age))) ∧
    (age < P.retirementAge →
      simStep P age s =
        (s.1 * (1 + P.rPre) + P.retContrib, s.2 * (1 + P.rPre) + P.nonretContrib)) :=
  ⟨simStep_decum P age s, simStep_accum P age s⟩

theorem projector_step_characterization_witness :
    (65 : ℤ) ≤ 70 ∧
    simStep ⟨65, 67, 0, 0, 0, 0, 40, 10, 10, 0, 0⟩ 70 (100, 20) =
      (if simNet ⟨65, 67, 0, 0, 0, 0, 40, 10, 10, 0, 0⟩ 70 ≤ 20 * (1 + 0) then 100 * (1 + 0)
       else max 0 (100 * (1 + 0) -
         (simNet ⟨65, 67, 0, 0, 0, 0, 40, 10, 10, 0, 0⟩ 70 - 20 * (1 + 0))),
       max 0 (20 * (1 + 0) - simNet ⟨65, 67, 0, 0, 0, 0, 40, 10, 10, 0, 0⟩ 70)) :=
  ⟨by decide,
    (projector_step_characterization ⟨65, 67, 0, 0, 0, 0, 40, 10, 10, 0, 0⟩ 70 (100, 20)).1
      (by decide)⟩

/- Bounds for the step-1 outputs over the documented input domain. -/
lemma step1_bounds (grossPay m L need : ℚ) (hL : 0 ≤ L) (hneed : 0 ≤ need) :
    0 ≤ (step1 grossPay m L need).emp401kDollarForMatch ∧
    (step1 grossPay m L need).emp401kDollarForMatch ≤ L ∧
    0 ≤ (step1 grossPay m L need).employerMatchDollarApplied ∧
    0 ≤ (step1 grossPay m L need).remainingNeed := by
  have hcap : max 0 L = L := max_eq_right hL
  by_cases hguard : 0 < grossPay ∧ 0 < grossPay * (m / 100) ∧ 0 < need
  · obtain ⟨hg, hc, hn⟩ := hguard
    simp only [step1, hcap]
    rw [if_pos (show 0 < grossPay ∧ 0 < grossPay * (m / 100) ∧ 0 < need from ⟨hg, hc, hn⟩)]
    dsimp only
    set e0 := min (min (min grossPay L) (grossPay * (m / 100))) (need / 2) with he0def
    have he0nn : 0 ≤ e0 := le_min (le_min (le_min hg.le hL) hc.le) (by linarith)
    have he0L : e0 ≤ L :=
      le_trans (min_le_left _ _) (le_trans (min_le_left _ _) (min_le_right _ _))
    by_cases hlt : e0 < L
    · simp only [if_pos hlt]
      have hpq : (0 : ℚ) ≤ e0 / grossPay * 100 :=
        mul_nonneg (div_nonneg he0nn hg.le) (by norm_num)
      have hpctq : (0 : ℚ) ≤ ((⌈e0 / grossPay * 100⌉ : ℤ) : ℚ) := by
        exact_mod_cast Int.ceil_nonneg hpq
      have he1nn : 0 ≤ min (grossPay * ((⌈e0 / grossPay * 100⌉ : ℚ) / 100)) L :=
        le_min (mul_nonneg hg.le (div_nonneg hpctq (by norm_num))) hL
      exact ⟨he1nn, min_le_right _ _, le_min hc.le he1nn, le_max_left _ _⟩
    · simp only [if_neg hlt]
      exact ⟨he0nn, he0L, le_min hc.le he0nn, le_max_left _ _⟩
  · simp only [step1, hcap, if_neg hguard]
    exact ⟨le_refl 0, hL, le_refl 0, hneed⟩

/- Non-negativity of the two sequential updates of the non-retirement annual
   need (the rounding credit at lines 332-334 and the overflow at 339-343). -/
lemma nn2_nonneg (nn0 td rem3 : ℚ) (hnn : 0 ≤ nn0) (h3 : 0 ≤ rem3) :
    0 ≤ (if 0 < rem3 then (if 0 < td then max 0 (nn0 - td) else nn0) + rem3
         else (if 0 < td then max 0 (nn0 - td) else nn0)) := by
  split_ifs
  · exact add_nonneg (le_max_left _ _) h3
  · exact add_nonneg hnn h3
  · exact le_max_left _ _
  · exact hnn

/-- C6: over the documented input domain with positive gross pay, the four
allocation outputs are non-negative, the final employee tax-advantaged
amount never exceeds L401k, and the final individual-account amount never
exceeds LIRA. -/
theorem allocator_outputs_nonneg_and_capped (grossPay m L LIRA need nn0 : ℚ)
    (hg : 0 < grossPay) (hm : 0 ≤ m) (hL : 0 ≤ L) (hI : 0 ≤ LIRA)
    (hneed : 0 ≤ need) (hnn : 0 ≤ nn0) :
    0 ≤ (allocate grossPay m L LIRA need nn0).rec401kDollarUsed ∧
    (allocate grossPay m L LIRA need nn0).rec401kDollarUsed ≤ L ∧
    0 ≤ (allocate grossPay m L LIRA need nn0).recEmployerMatchDollarUsed ∧
    0 ≤ (allocate grossPay m L LIRA need nn0).recommendedIra ∧
    (allocate grossPay m L LIRA need nn0).recommendedIra ≤ LIRA ∧
    0 ≤ (allocate grossPay m L LIRA need nn0).neededNonretAnnual := by
  obtain ⟨hE0, hEL, hM0, hR0⟩ := step1_bounds grossPay m L need hL hneed
  have hcap : max 0 L = L := max_eq_right hL
  have hmc : 0 ≤ grossPay * (m / 100) := mul_nonneg hg.le (div_nonneg hm (by norm_num))
  simp only [allocate, hcap]
  set E := (step1 grossPay m L need).emp401kDollarForMatch with hEdef
  set R := (step1 grossPay m L need).remainingNeed with hRdef
  set MA := (step1 grossPay m L need).employerMatchDollarApplied with hMAdef
  set ira0 := min LIRA R with hira0def
  have hira0nn : 0 ≤ ira0 := le_min hI hR0
  have hira0le : ira0 ≤ LIRA := min_le_left _ _
  set rem2 := max 0 (R - ira0) with hrem2def
  have hrem2nn : 0 ≤ rem2 := le_max_left _ _
  set extra := min rem2 (L - E) with hextradef
  have hextrann : 0 ≤ extra := le_min hrem2nn (by linarith)
  have hextrale : extra ≤ L - E := min_le_right _ _
  set rec0 := E + extra with hrec0def
  have hrec0nn : 0 ≤ rec0 := by rw [hrec0def]; exact add_nonneg hE0 hextrann
  have hrec0L : rec0 ≤ L := by rw [hrec0def]; linarith
  set rem3 := max 0 (rem2 - extra) with hrem3def
  have hrem3nn : 0 ≤ rem3 := le_max_left _ _
  by_cases h4 : rec0 < L ∧ 0 < rec0
  · simp only [if_pos h4]
    have hpq : (0 : ℚ) ≤ rec0 / grossPay * 100 :=
      mul_nonneg (div_nonneg hrec0nn hg.le) (by norm_num)
    have hpctq : (0 : ℚ) ≤ ((⌈rec0 / grossPay * 100⌉ : ℤ) : ℚ) := by
      exact_mod_cast Int.ceil_nonneg hpq
    set rec1 := min L (grossPay * ((⌈rec0 / grossPay * 100⌉ : ℚ) / 100)) with hrec1def
    have hrec1nn : 0 ≤ rec1 :=
      le_min hL (mul_nonneg hg.le (div_nonneg hpctq (by norm_num)))
    have hrec1L : rec1 ≤ L := min_le_left _ _
    have hup : rec0 ≤ grossPay * ((⌈rec0 / grossPay * 100⌉ : ℚ) / 100) := by
      have hle : rec0 / grossPay * 100 ≤ ((⌈rec0 / grossPay * 100⌉ : ℤ) : ℚ) := Int.le_ceil _
      have hdiv : rec0 / grossPay * 100 / 100 ≤ ((⌈rec0 / grossPay * 100⌉ : ℚ)) / 100 := by
        linarith
      have hmul : grossPay * (rec0 / grossPay * 100 / 100) ≤
          grossPay * (((⌈rec0 / grossPay * 100⌉ : ℤ) : ℚ) / 100) :=
        mul_le_mul_of_nonneg_left hdiv hg.le
      have hval : grossPay * (rec0 / grossPay * 100 / 100) = rec0 := by
        field_simp
        ring
      linarith
    have hrec1ge : rec0 ≤ rec1 := le_min h4.1.le hup
    by_cases hneq : rec1 ≠ rec0
    · simp only [if_pos hneq]
      refine ⟨hrec1nn, hrec1L, le_min hmc hrec1nn, le_max_left _ _, ?_, ?_⟩
      · exact max_le hI (by linarith)
      · exact nn2_nonneg nn0 _ _ hnn hrem3nn
    · simp only [if_neg hneq]
      exact ⟨hrec1nn, hrec1L, le_min hmc hrec1nn, hira0nn, hira0le,
        nn2_nonneg nn0 _ _ hnn hrem3nn⟩
  · simp only [if_neg h4]
    exact ⟨hrec0nn, hrec0L, le_min hmc hrec0nn, hira0nn, hira0le,
      nn2_nonneg nn0 _ _ hnn hrem3nn⟩

theorem allocator_outputs_nonneg_and_capped_witness :
    (0 : ℚ) < 1000 ∧
    (0 ≤ (allocate 1000 3 500 100 50 5).rec401kDollarUsed ∧
      (allocate 1000 3 500 100 50 5).rec401kDollarUsed ≤ 500 ∧
      0 ≤ (allocate 1000 3 500 100 50 5).recEmployerMatchDollarUsed ∧
      0 ≤ (allocate 1000 3 500 100 50 5).recommendedIra ∧
      (allocate 1000 3 500 100 50 5).recommendedIra ≤ 100 ∧
      0 ≤ (allocate 1000 3 500 100 50 5).neededNonretAnnual) :=
  ⟨by norm_num,
    allocator_outputs_nonneg_and_capped 1000 3 500 100 50 5 (by norm_num) (by norm_num)
      (by norm_num) (by norm_num) (by norm_num) (by norm_num)⟩

/-- C7: at grossPay 1000, matchPct 0, L401k 100, LIRA 0, need 15 and a
bridge non-retirement need of 10, the second round-up raises the employee
amount from 15 to 20, yet neededNonretAnnual stays 10 instead of being
reduced by the 5-dollar upward delta: the deltaEmployee computed at source
line 329 subtracts the already-overwritten variable from itself and is
always 0, so only the employer-match delta is ever credited. -/
theorem allocator_rounding_credit_dropped :
    (allocate 1000 0 100 0 15 10).rec401kDollarUsed = 20 ∧
    (allocate 1000 0 100 0 15 10).recEmployerMatchDollarUsed = 0 ∧
    (allocate 1000 0 100 0 15 10).neededNonretAnnual = 10 ∧
    (allocate 1000 0 100 0 15 10).neededNonretAnnual ≠
      max 0 ((10 : ℚ) - ((20 - 15) + (0 - 0))) := by
  have hs1 : step1 1000 0 100 15 = ⟨0, 0, 0, 15⟩ := by
    simp only [step1]
    norm_num
  have hc : ⌈(3 / 2 : ℚ)⌉ = 2 := by
    rw [Int.ceil_eq_iff]
    norm_num
  simp only [allocate, hs1]
  norm_num [min_def, max_def, hc]

/-- C4: over the documented input domain (non-negative balances and
contributions, growth factors at least 0) every snapshot produced by the
balance projector has non-negative buckets, the final state of simulateToAge
has non-negative buckets, and a total shortfall (withdrawal need exceeding
both grown balances) drives both buckets to exactly 0 rather than an
error. -/
theorem projector_balances_nonneg (P : SimParams)
    (hpre : 0 ≤ 1 + P.rPre) (hpost : 0 ≤ 1 + P.rPost)
    (hrc : 0 ≤ P.retContrib) (hnc : 0 ≤ P.nonretContrib)
    (curAge targetAge : ℤ) (years : ℕ) (init : ℚ × ℚ)
    (h1 : 0 ≤ init.1) (h2 : 0 ≤ init.2) :
    (∀ snap ∈ simulatePoints P curAge years init, 0 ≤ snap.retBal ∧ 0 ≤ snap.nonretBal) ∧
    (0 ≤ (simulateToAge P curAge targetAge init).1 ∧
      0 ≤ (simulateToAge P curAge targetAge init).2) ∧
    (∀ (age : ℤ) (s : ℚ × ℚ), P.retirementAge ≤ age → 0 ≤ s.1 →
      s.1 * (1 + P.rPost) + s.2 * (1 + P.rPost) < simNet P age →
      simStep P age s = (0, 0)) := by
  refine ⟨?_, ?_, ?_⟩
  · intro snap hsnap
    simp only [simulatePoints, List.mem_map] at hsnap
    obtain ⟨i, _hi, rfl⟩ := hsnap
    exact simFold_nonneg P hpre hpost hrc hnc _ init h1 h2
  · exact simFold_nonneg P hpre hpost hrc hnc _ init h1 h2
  · intro age s hage hs1 hlt
    rw [simStep_decum P age s hage]
    have hretg : 0 ≤ s.1 * (1 + P.rPost) := mul_nonneg hs1 hpost
    have hni : ¬ simNet P age ≤ s.2 * (1 + P.rPost) := by
      intro hcon
      linarith
    rw [if_neg hni,
      max_eq_left (show s.1 * (1 + P.rPost) - (simNet P age - s.2 * (1 + P.rPost)) ≤ 0 by
        linarith),
      max_eq_left (show s.2 * (1 + P.rPost) - simNet P age ≤ 0 by linarith)]

theorem projector_balances_nonneg_witness :
    (0 : ℚ) ≤ ((10, 5) : ℚ × ℚ).1 ∧
    (0 ≤ (simulateToAge ⟨60, 60, 0, 0, 0, 0, 1000, 0, 0, 0, 0⟩ 60 63 (10, 5)).1 ∧
      0 ≤ (simulateToAge ⟨60, 60, 0, 0, 0, 0, 1000, 0, 0, 0, 0⟩ 60 63 (10, 5)).2) :=
  ⟨by norm_num,
    (projector_balances_nonneg ⟨60, 60, 0, 0, 0, 0, 1000, 0, 0, 0, 0⟩ (by norm_num)
      (by norm_num) (by norm_num) (by norm_num) 60 63 2 (10, 5) (by norm_num)
      (by norm_num)).2.1⟩

/-- C9: when retirementAge equals penaltyFreeAge, earlyYears is 0, the early
present value is 0, the non-retirement shortfall at retirement is 0, and the
required annual bridge saving computed from it is 0. -/
theorem bridge_zero_when_retiring_at_penalty_free_age (retAge penaltyFreeAge : ℤ)
    (w g p ss fi rPost rPre ret0 nonret0 : ℚ) (ofs : ℤ) (n : ℕ)
    (hEq : penaltyFreeAge = retAge) (h0 : 0 ≤ nonret0) (hr : 0 ≤ 1 + rPre) :
    earlyYearsOf retAge penaltyFreeAge = 0 ∧
    earlyNeededCalc w g p ss fi rPost ofs (earlyYearsOf retAge penaltyFreeAge) = 0 ∧
    shortfallNonretAtRet
      (earlyNeededCalc w g p ss fi rPost ofs (earlyYearsOf retAge penaltyFreeAge))
      (projectLoop rPre 0 0 n (ret0, nonret0)).2 = 0 ∧
    neededNonretAnnualCalc
      (shortfallNonretAtRet
        (earlyNeededCalc w g p ss fi rPost ofs (earlyYearsOf retAge penaltyFreeAge))
        (projectLoop rPre 0 0 n (ret0, nonret0)).2) rPre n = 0 := by
  have hy : earlyYearsOf retAge penaltyFreeAge = 0 := by
    unfold earlyYearsOf
    omega
  have hearly : earlyNeededCalc w g p ss fi rPost ofs (earlyYearsOf retAge penaltyFreeAge) = 0 := by
    rw [hy]
    unfold earlyNeededCalc
    rw [if_neg (lt_irrefl 0)]
  have hproj : 0 ≤ (projectLoop rPre 0 0 n (ret0, nonret0)).2 :=
    projectLoop_snd_nonneg rPre 0 0 hr le_rfl n (ret0, nonret0) h0
  have hshort : shortfallNonretAtRet
      (earlyNeededCalc w g p ss fi rPost ofs (earlyYearsOf retAge penaltyFreeAge))
      (projectLoop rPre 0 0 n (ret0, nonret0)).2 = 0 := by
    rw [hearly]
    unfold shortfallNonretAtRet
    exact max_eq_left (by linarith)
  refine ⟨hy, hearly, hshort, ?_⟩
  rw [hshort]
  unfold neededNonretAnnualCalc
  rw [if_neg (lt_irrefl 0)]

theorem bridge_zero_witness :
    (60 : ℤ) = 60 ∧
    (earlyYearsOf 60 60 = 0 ∧
      earlyNeededCalc 50000 0 0 0 0 0 0 (earlyYearsOf 60 60) = 0 ∧
      shortfallNonretAtRet (earlyNeededCalc 50000 0 0 0 0 0 0 (earlyYearsOf 60 60))
        (projectLoop 0 0 0 3 (0, 5)).2 = 0 ∧
      neededNonretAnnualCalc
        (shortfallNonretAtRet (earlyNeededCalc 50000 0 0 0 0 0 0 (earlyYearsOf 60 60))
          (projectLoop 0 0 0 3 (0, 5)).2) 0 3 = 0) :=
  ⟨rfl,
    bridge_zero_when_retiring_at_penalty_free_age 60 60 50000 0 0 0 0 0 0 0 5 0 3 rfl
      (by norm_num) (by norm_num)⟩

end RetirementCalc
